import Mathlib

/-!
Verification of the iot-sensor-fleet message-processing pipeline.

The Go source is shallowly embedded: the consumer retry loop
(kafkaConsumer.processMessage), the publisher retry loop
(kafkaPublisher.Publish), the worker-pool semaphore (ConsumeClaim), the
anomaly-detector handler (AnomalyDetector.handleMessage) and the record
model (SensorReading / SensorAlert / ValidateSensorReading) become pure
Lean functions.  Nondeterministic inputs of a run — whether the shutdown
context is done at each check, whether a delivery attempt acknowledges,
whether the retry deadline has passed, whether cancellation fires during
a backoff wait — are supplied by an environment record, one field per
select/branch point of the source.  Each run produces the list of
externally visible events (handler invocations, dead-letter forwards,
alert publishes, offset commit, worker-slot release) in program order.
-/

namespace SensorFleet

/-- internal/model/models.go: SensorReading (floats carried as exact
rationals; the threshold comparisons in this file are exact at these
values). -/
structure SensorReading where
  id : String
  timestamp : Int
  temperature : ℚ
  humidity : ℚ
deriving DecidableEq, Repr

/-- internal/model/models.go: SensorAlert. -/
structure SensorAlert where
  sensorID : String
  timestamp : Int
  reason : String
  temperature : ℚ
  humidity : ℚ
deriving DecidableEq, Repr

/-- internal/model/models.go: NewSensorAlert builds an alert from a
reading and a reason, copying id, timestamp and both measurements. -/
def NewSensorAlert (reading : SensorReading) (reason : String) : SensorAlert :=
  { sensorID := reading.id
    timestamp := reading.timestamp
    reason := reason
    temperature := reading.temperature
    humidity := reading.humidity }

/-- internal/model/models.go: ValidateSensorReading, hardcoded
thresholds 50.0 and 10.0, first check wins. -/
def ValidateSensorReading (reading : SensorReading) : Bool × String :=
  if reading.temperature > 50 then (false, "Temperature exceeds 50°C")
  else if reading.humidity < 10 then (false, "Humidity below 10%")
  else (true, "")

/-- A consumed record: opaque key and value byte sequences
(sarama.ConsumerMessage as used by the pipeline). -/
structure ConsumerMessage where
  key : List Nat
  value : List Nat
deriving DecidableEq, Repr

/-- Externally visible events of one record dispatch, in program order. -/
inductive Event where
  | handlerCall : Event
  | dltForward : List Nat → List Nat → Event
  | alertPublish : String → SensorAlert → Event
  | commit : Event
  | release : Event
deriving DecidableEq, Repr

def isHandlerCall : Event → Bool
  | .handlerCall => true
  | _ => false

def isDlt : Event → Bool
  | .dltForward _ _ => true
  | _ => false

def isAlert : Event → Bool
  | .alertPublish _ _ => true
  | _ => false

def isCommit : Event → Bool
  | .commit => true
  | _ => false

def isRelease : Event → Bool
  | .release => true
  | _ => false

/-- cmd/anomaly-detector main.go: the AnomalyDetector struct carries the
configured thresholds (cfg.MaxTemperature, cfg.MinHumidity). -/
structure AnomalyDetector where
  maxTemperature : ℚ
  minHumidity : ℚ
deriving DecidableEq, Repr

/-- cmd/anomaly-detector main.go: handleMessage.  The deserialization
outcome of message.Value is passed in (the Avro codec is an external
collaborator): none means DeserializeSensorReading failed.  On failure
the raw record is sent to the DLT producer and the error is returned; on
success the reading is validated with ValidateSensorReading (note: the
detector's own threshold fields are never consulted) and an invalid
reading produces one alert publish keyed by the alert's SensorID.
Alert serialization, a collaborator, is modelled as always succeeding.
Returns the emitted events and whether an error was returned. -/
def AnomalyDetector.handleMessage (_a : AnomalyDetector)
    (deser : Option SensorReading) (message : ConsumerMessage) :
    List Event × Bool :=
  match deser with
  | none => ([Event.dltForward message.key message.value], true)
  | some reading =>
    let v := ValidateSensorReading reading
    if v.1 = false then
      let alert := NewSensorAlert reading v.2
      ([Event.alertPublish alert.sensorID alert], false)
    else ([], false)

/-- internal/kafka consumer: maxRetries := 3 in processMessage (and in
Publish). -/
def maxRetries : Nat := 3

/-- internal/kafka option defaults: DefaultWorkerPoolSize = 10. -/
def DefaultWorkerPoolSize : Nat := 10

/-- Environment of one processMessage run: for loop iteration i,
whether ctx.Done is ready at the top-of-iteration select, whether
time.Now().After(deadline) holds after a failed attempt, and whether
ctx.Done fires before the jitter timer during the wait. -/
structure ConsumeEnv where
  ctxDoneAtCheck : Nat → Bool
  deadlineExceeded : Nat → Bool
  cancelDuringWait : Nat → Bool

/-- How the retry loop of processMessage exits: the for loop either
runs all its iterations (the only break statements in the loop body sit
inside the select and, per Go semantics, terminate only the select), or
one of the two return statements fires on the shutdown signal. -/
inductive LoopExit where
  | finished
  | cancelled
deriving DecidableEq, Repr

/-- internal/kafka consumer: the retry loop of processMessage.
`handler i` gives the events emitted by and the error status (true =
non-nil error) of the i-th handler invocation.  The `break` after a
successful invocation and the `break` after the deadline check exit
only the enclosing select, so in both cases the for loop continues
with the next iteration, skipping the backoff wait; only the two
`return`s on ctx.Done leave the function early.  Structural recursion
on the remaining iteration count, starting from attempt index i. -/
def processMessageAux (handler : Nat → List Event × Bool)
    (env : ConsumeEnv) : Nat → Nat → List Event × LoopExit
  | _, 0 => ([], LoopExit.finished)
  | i, fuel + 1 =>
    if env.ctxDoneAtCheck i then ([], LoopExit.cancelled)
    else
      let inv := handler i
      let evs := Event.handlerCall :: inv.1
      if inv.2 = false then
        let rest := processMessageAux handler env (i + 1) fuel
        (evs ++ rest.1, rest.2)
      else if env.deadlineExceeded i then
        let rest := processMessageAux handler env (i + 1) fuel
        (evs ++ rest.1, rest.2)
      else if env.cancelDuringWait i then (evs, LoopExit.cancelled)
      else
        let rest := processMessageAux handler env (i + 1) fuel
        (evs ++ rest.1, rest.2)

/-- internal/kafka consumer: processMessage.  The two cancellation
paths return without MarkMessage; a loop that runs all its iterations
(whatever mix of successes, failures and deadline-skipped waits — the
DLQ is only a source comment, no dead-letter forwarding happens here)
falls through to session.MarkMessage. -/
def processMessage (handler : Nat → List Event × Bool)
    (env : ConsumeEnv) : List Event :=
  let r := processMessageAux handler env 0 maxRetries
  match r.2 with
  | LoopExit.cancelled => r.1
  | _ => r.1 ++ [Event.commit]

/-- internal/kafka consumer: the goroutine spawned by ConsumeClaim runs
processMessage with the worker-slot release deferred, so the release
happens exactly once, after processMessage returns on any path. -/
def dispatch (handler : Nat → List Event × Bool) (env : ConsumeEnv) :
    List Event :=
  processMessage handler env ++ [Event.release]

/-- An environment with no cancellation and no deadline expiry. -/
def quietEnv : ConsumeEnv :=
  { ctxDoneAtCheck := fun _ => false
    deadlineExceeded := fun _ => false
    cancelDuringWait := fun _ => false }

/-- The detector as constructed with the default configuration
(cfg.MaxTemperature = 50.0, cfg.MinHumidity = 10.0). -/
def defaultDetector : AnomalyDetector := { maxTemperature := 50, minHumidity := 10 }

/-- Result of kafkaPublisher.Publish: nil on an acknowledged attempt,
ctx.Err() on cancellation, or the error wrapping lastErr — identified
here by the index of the last executed failed delivery attempt. -/
inductive PublishResult where
  | success
  | cancelled
  | exhausted : Option Nat → PublishResult
deriving DecidableEq, Repr

/-- Environment of one Publish run: for retry iteration i, whether
ctx.Done is ready at the top-of-iteration select, whether
producer.SendMessage acknowledges, whether time.Now().After(deadline)
holds after a failure, and whether ctx.Done fires before the jitter
timer during the wait. -/
structure PublishEnv where
  ctxDoneAtCheck : Nat → Bool
  sendOk : Nat → Bool
  deadlineExceeded : Nat → Bool
  cancelDuringWait : Nat → Bool

/-- internal/kafka publisher: the retry loop of Publish, carrying the
index of the attempt whose error is held in lastErr.  Success is a
genuine `return nil`, but the `break` after the deadline check exits
only the enclosing select (Go semantics), so the for loop continues
with the next delivery attempt, skipping the backoff wait; exhaustion
of the loop returns the error wrapping lastErr. -/
def publishAux (env : PublishEnv) : Nat → Nat → Option Nat → PublishResult
  | _, 0, last => PublishResult.exhausted last
  | i, fuel + 1, _last =>
    if env.ctxDoneAtCheck i then PublishResult.cancelled
    else if env.sendOk i then PublishResult.success
    else if env.deadlineExceeded i then publishAux env (i + 1) fuel (some i)
    else if env.cancelDuringWait i then PublishResult.cancelled
    else publishAux env (i + 1) fuel (some i)

/-- internal/kafka publisher: Publish (maxRetries := 3). -/
def Publish (env : PublishEnv) : PublishResult :=
  publishAux env 0 maxRetries none

/-- Consumer retry loop, line 192: backoffTime := 100*(1 shl i)
milliseconds.  Durations carried as exact rationals in milliseconds. -/
def consumerBackoffTime (i : Nat) : ℚ := 100 * 2 ^ i

/-- Consumer retry loop, line 194: jitter := backoffTime * (0.8 +
0.4*rand.Float64()); u is the uniform draw from [0,1). -/
def consumerJitter (i : Nat) (u : ℚ) : ℚ :=
  consumerBackoffTime i * (8 / 10 + 4 / 10 * u)

/-- Publisher retry loop, line 305: same backoff formula. -/
def publisherBackoffTime (i : Nat) : ℚ := 100 * 2 ^ i

/-- Publisher retry loop, line 307: same jitter formula. -/
def publisherJitter (i : Nat) (u : ℚ) : ℚ :=
  publisherBackoffTime i * (8 / 10 + 4 / 10 * u)

/-- One operation on the worker-pool channel (workerPool chan struct{}
of capacity N): a send acquires a slot, a receive releases one. -/
inductive SlotOp where
  | acquire
  | release
deriving DecidableEq, Repr

/-- Occupied slots after applying a sequence of channel operations,
starting from n occupied. -/
def occupiedFrom (n : Nat) : List SlotOp → Nat
  | [] => n
  | SlotOp.acquire :: rest => occupiedFrom (n + 1) rest
  | SlotOp.release :: rest => occupiedFrom (n - 1) rest

/-- Channel semantics of the semaphore: a send on a buffered channel of
capacity cap only completes while fewer than cap tokens are buffered,
and a receive only completes while some token is buffered.  Any
interleaved history of ConsumeClaim acquires and goroutine releases is
such a trace. -/
def validFrom (cap : Nat) (n : Nat) : List SlotOp → Prop
  | [] => True
  | SlotOp.acquire :: rest => n < cap ∧ validFrom cap (n + 1) rest
  | SlotOp.release :: rest => 0 < n ∧ validFrom cap (n - 1) rest

/-- Base-128 varint encoding, least significant group first, high bit
set on every group but the last (the Avro unsigned varint).  Structural
recursion on a fuel bound so the definition evaluates in the kernel. -/
def varintAux : Nat → Nat → List Nat
  | _, 0 => []
  | n, fuel + 1 =>
    if n < 128 then [n] else (n % 128 + 128) :: varintAux (n / 128) fuel

def varint (n : Nat) : List Nat := varintAux n (n + 1)

def parseVarint : List Nat → Option (Nat × List Nat)
  | [] => none
  | b :: rest =>
    if b < 128 then some (b, rest)
    else
      match parseVarint rest with
      | some (m, rest2) => some (m * 128 + (b - 128), rest2)
      | none => none

/-- Avro zigzag mapping of a signed long to the varint domain. -/
def zigzagEncode (n : Int) : Nat :=
  if 0 ≤ n then 2 * n.toNat else 2 * (-n).toNat - 1

def zigzagDecode (m : Nat) : Int :=
  if m % 2 = 0 then ((m / 2 : Nat) : Int) else -(((m / 2 : Nat) : Int) + 1)

/-- Avro bytes/string encoding: varint length, then the raw bytes. -/
def encodeBytes (xs : List Nat) : List Nat := varint xs.length ++ xs

def parseBytes (l : List Nat) : Option (List Nat × List Nat) :=
  match parseVarint l with
  | some (n, rest) =>
    if n ≤ rest.length then some (rest.take n, rest.drop n) else none
  | none => none

/-- Avro float: the four bytes of the 32-bit word, little endian. -/
def word32Bytes (w : Nat) : List Nat :=
  [w % 256, w / 256 % 256, w / 65536 % 256, w / 16777216 % 256]

def parseWord32 : List Nat → Option (Nat × List Nat)
  | a :: b :: c :: d :: rest =>
    some (a + 256 * b + 65536 * c + 16777216 * d, rest)
  | _ => none

/-- Modelled from the spec: the wire form of a Reading — {id: string,
timestamp: int64 millis, two float measurements}, flat and fixed-field.
The schema files (sensor_reading.avsc) and the Avro codec the source
delegates to are not under src, so the record is carried with its id as
a byte sequence and each float32 as its 32-bit word: round-tripping the
word is exactness within the format's native precision. -/
structure SensorReadingWire where
  id : List Nat
  timestamp : Int
  temperature : Nat
  humidity : Nat
deriving DecidableEq, Repr

/-- Modelled from the spec: the wire form of an Alert — {source id,
timestamp, reason: string, the two measurements}. -/
structure SensorAlertWire where
  sensorID : List Nat
  timestamp : Int
  reason : List Nat
  temperature : Nat
  humidity : Nat
deriving DecidableEq, Repr

/-- Modelled from the spec: SerializeSensorReading — Avro binary body of
the reading, fields in declaration order. -/
def SerializeSensorReading (r : SensorReadingWire) : List Nat :=
  encodeBytes r.id ++ varint (zigzagEncode r.timestamp) ++
    word32Bytes r.temperature ++ word32Bytes r.humidity

/-- Modelled from the spec: DeserializeSensorReading — parses the four
fields back; like the source codec, trailing bytes are ignored. -/
def DeserializeSensorReading (data : List Nat) : Option SensorReadingWire :=
  match parseBytes data with
  | none => none
  | some (idb, r1) =>
    match parseVarint r1 with
    | none => none
    | some (tsn, r2) =>
      match parseWord32 r2 with
      | none => none
      | some (tw, r3) =>
        match parseWord32 r3 with
        | none => none
        | some (hw, _) => some ⟨idb, zigzagDecode tsn, tw, hw⟩

/-- Modelled from the spec: SerializeSensorAlert. -/
def SerializeSensorAlert (a : SensorAlertWire) : List Nat :=
  encodeBytes a.sensorID ++ varint (zigzagEncode a.timestamp) ++
    encodeBytes a.reason ++ word32Bytes a.temperature ++ word32Bytes a.humidity

/-- Modelled from the spec: DeserializeSensorAlert. -/
def DeserializeSensorAlert (data : List Nat) : Option SensorAlertWire :=
  match parseBytes data with
  | none => none
  | some (sid, r1) =>
    match parseVarint r1 with
    | none => none
    | some (tsn, r2) =>
      match parseBytes r2 with
      | none => none
      | some (rsn, r3) =>
        match parseWord32 r3 with
        | none => none
        | some (tw, r4) =>
          match parseWord32 r4 with
          | none => none
          | some (hw, _) => some ⟨sid, zigzagDecode tsn, rsn, tw, hw⟩

/-- Record used when exercising the pipeline on a payload whose
deserialization fails. -/
def brokenMsg : ConsumerMessage := ⟨[107], [1, 2, 3]⟩

/-- A publish environment in which every delivery attempt fails and no
cancellation or deadline expiry occurs. -/
def allFailEnv : PublishEnv :=
  { ctxDoneAtCheck := fun _ => false
    sendOk := fun _ => false
    deadlineExceeded := fun _ => false
    cancelDuringWait := fun _ => false }

/-- A consumer environment whose shutdown context becomes done between
the first and the second loop iteration: the check at iteration 1
observes it. -/
def cancelAtOneEnv : ConsumeEnv :=
  { ctxDoneAtCheck := fun i => i == 1
    deadlineExceeded := fun _ => false
    cancelDuringWait := fun _ => false }

/-- A publish environment in which the retry deadline has already
passed when the first delivery attempt fails, and the second attempt
acknowledges. -/
def deadlineRaceEnv : PublishEnv :=
  { ctxDoneAtCheck := fun _ => false
    sendOk := fun i => i == 1
    deadlineExceeded := fun _ => true
    cancelDuringWait := fun _ => false }

/-- One Publish iteration that ran to completion without leaving the
function: context alive, send failed, and the iteration did not return
out of the backoff wait — either because the deadline break skipped the
wait, or because the wait finished without cancellation. -/
def nonReturnFail (env : PublishEnv) (j : Nat) : Prop :=
  env.ctxDoneAtCheck j = false ∧ env.sendOk j = false ∧
  (env.deadlineExceeded j = true ∨ env.cancelDuringWait j = false)

lemma parseVarint_varintAux (t : List Nat) :
    ∀ fuel n, n < fuel → parseVarint (varintAux n fuel ++ t) = some (n, t) := by
  intro fuel
  induction fuel with
  | zero => intro n h; omega
  | succ fuel ih =>
    intro n h
    by_cases h128 : n < 128
    · simp [varintAux, h128, parseVarint]
    · have hrec : n / 128 < fuel := by omega
      have hb : ¬ (n % 128 + 128 < 128) := by omega
      simp only [varintAux, h128, if_false, List.cons_append]
      rw [parseVarint, if_neg hb, ih _ hrec]
      simp only [Option.some.injEq, Prod.mk.injEq]
      exact ⟨by omega, trivial⟩

lemma parseVarint_varint (n : Nat) (t : List Nat) :
    parseVarint (varint n ++ t) = some (n, t) :=
  parseVarint_varintAux t (n + 1) n (by omega)

lemma zigzag_round (n : Int) : zigzagDecode (zigzagEncode n) = n := by
  unfold zigzagEncode zigzagDecode
  by_cases h : 0 ≤ n
  · simp only [h, if_true]
    have h2 : 2 * n.toNat % 2 = 0 := by omega
    simp [h2]
    omega
  · simp only [h, if_false]
    have h1 : 1 ≤ (-n).toNat := by omega
    have h2 : ¬ ((2 * (-n).toNat - 1) % 2 = 0) := by omega
    simp [h2]
    omega

lemma parseBytes_encodeBytes (xs t : List Nat) :
    parseBytes (encodeBytes xs ++ t) = some (xs, t) := by
  unfold parseBytes encodeBytes
  rw [List.append_assoc, parseVarint_varint]
  have hle : xs.length ≤ (xs ++ t).length := by simp
  simp only [hle, if_true, List.take_left, List.drop_left]

lemma parseWord32_word32Bytes (w : Nat) (hw : w < 4294967296) (t : List Nat) :
    parseWord32 (word32Bytes w ++ t) = some (w, t) := by
  unfold parseWord32 word32Bytes
  simp only [List.cons_append, List.nil_append]
  have : w % 256 + 256 * (w / 256 % 256) + 65536 * (w / 65536 % 256) +
      16777216 * (w / 16777216 % 256) = w := by omega
  rw [this]

lemma occupiedFrom_take_le (cap : Nat) :
    ∀ (ops : List SlotOp) (n k : Nat),
      validFrom cap n ops → n ≤ cap → occupiedFrom n (ops.take k) ≤ cap := by
  intro ops
  induction ops with
  | nil =>
    intro n k _ hn
    simpa [occupiedFrom] using hn
  | cons op rest ih =>
    intro n k hv hn
    cases k with
    | zero => simpa [occupiedFrom] using hn
    | succ k =>
      cases op with
      | acquire =>
        rw [validFrom] at hv
        simpa [List.take, occupiedFrom] using ih (n + 1) k hv.2 (by omega)
      | release =>
        rw [validFrom] at hv
        simpa [List.take, occupiedFrom] using ih (n - 1) k hv.2 (by omega)

lemma countP_processMessageAux (p : Event → Bool) (hp : p Event.handlerCall = false)
    (handler : Nat → List Event × Bool) (env : ConsumeEnv)
    (hh : ∀ i, (handler i).1.countP p = 0) :
    ∀ fuel i, ((processMessageAux handler env i fuel).1).countP p = 0 := by
  intro fuel
  induction fuel with
  | zero => intro i; simp [processMessageAux]
  | succ fuel ih =>
    intro i
    rw [processMessageAux]
    by_cases hc : env.ctxDoneAtCheck i = true
    · simp [hc]
    · simp only [Bool.not_eq_true] at hc
      by_cases he : (handler i).2 = false <;>
        by_cases hd : env.deadlineExceeded i = true <;>
        by_cases hw : env.cancelDuringWait i = true <;>
          simp [hc, he, hd, hw, List.countP_cons, List.countP_append, hp, hh i, ih]

lemma countP_release_processMessage (handler : Nat → List Event × Bool)
    (env : ConsumeEnv) (hh : ∀ i, (handler i).1.countP isRelease = 0) :
    (processMessage handler env).countP isRelease = 0 := by
  unfold processMessage
  have haux := countP_processMessageAux isRelease rfl handler env hh maxRetries 0
  cases hex : (processMessageAux handler env 0 maxRetries).2 <;>
    simp [hex, haux, List.countP_append, isRelease]

lemma publishAux_step (env : PublishEnv) (i fuel : Nat) (last : Option Nat)
    (hc : env.ctxDoneAtCheck i = false) (hs : env.sendOk i = false)
    (hw : env.cancelDuringWait i = false) :
    publishAux env i (fuel + 1) last = publishAux env (i + 1) fuel (some i) := by
  rw [publishAux]
  by_cases hd : env.deadlineExceeded i = true <;>
    simp [hc, hs, hw, hd]

lemma publishAux_success_iff (env : PublishEnv) :
    ∀ fuel start last,
      publishAux env start fuel last = PublishResult.success ↔
      ∃ k, k < fuel ∧ (∀ j, j < k → nonReturnFail env (start + j)) ∧
        env.ctxDoneAtCheck (start + k) = false ∧ env.sendOk (start + k) = true := by
  intro fuel
  induction fuel with
  | zero =>
    intro start last
    simp [publishAux]
  | succ fuel ih =>
    intro start last
    rw [publishAux]
    by_cases hc : env.ctxDoneAtCheck start = true
    · simp only [hc, if_true]
      constructor
      · intro h
        exact absurd h (by simp)
      · rintro ⟨k, hk, hall, hch, hs⟩
        cases k with
        | zero =>
          rw [Nat.add_zero] at hch
          rw [hc] at hch
          exact absurd hch (by decide)
        | succ k =>
          have hf := hall 0 (by omega)
          rw [Nat.add_zero] at hf
          rcases hf with ⟨g1, -, -⟩
          rw [hc] at g1
          exact absurd g1 (by decide)
    · simp only [Bool.not_eq_true] at hc
      simp only [hc, Bool.false_eq_true, if_false]
      by_cases hs : env.sendOk start = true
      · simp only [hs, if_true]
        constructor
        · intro _
          exact ⟨0, by omega, fun j hj => absurd hj (by omega), by
            rw [Nat.add_zero]; exact ⟨hc, hs⟩⟩
        · intro _
          trivial
      · simp only [Bool.not_eq_true] at hs
        simp only [hs, Bool.false_eq_true, if_false]
        have hshift : (∃ k, k < fuel ∧
            (∀ j, j < k → nonReturnFail env (start + 1 + j)) ∧
            env.ctxDoneAtCheck (start + 1 + k) = false ∧
            env.sendOk (start + 1 + k) = true) →
            ∀ hnr : nonReturnFail env start,
            ∃ k, k < fuel + 1 ∧ (∀ j, j < k → nonReturnFail env (start + j)) ∧
              env.ctxDoneAtCheck (start + k) = false ∧
              env.sendOk (start + k) = true := by
          rintro ⟨k, hk, hall, hch, hsk⟩ hnr
          refine ⟨k + 1, by omega, ?_, ?_, ?_⟩
          · intro j hj
            cases j with
            | zero =>
              rw [Nat.add_zero]
              exact hnr
            | succ j =>
              have e : start + (j + 1) = start + 1 + j := by omega
              rw [e]
              exact hall j (by omega)
          · have e : start + (k + 1) = start + 1 + k := by omega
            rw [e]
            exact hch
          · have e : start + (k + 1) = start + 1 + k := by omega
            rw [e]
            exact hsk
        have hback : (∃ k, k < fuel + 1 ∧
            (∀ j, j < k → nonReturnFail env (start + j)) ∧
            env.ctxDoneAtCheck (start + k) = false ∧
            env.sendOk (start + k) = true) →
            ∃ k, k < fuel ∧ (∀ j, j < k → nonReturnFail env (start + 1 + j)) ∧
              env.ctxDoneAtCheck (start + 1 + k) = false ∧
              env.sendOk (start + 1 + k) = true := by
          rintro ⟨k, hk, hall, hch, hsk⟩
          cases k with
          | zero =>
            rw [Nat.add_zero] at hsk
            rw [hs] at hsk
            exact absurd hsk (by decide)
          | succ k =>
            refine ⟨k, by omega, ?_, ?_, ?_⟩
            · intro j hj
              have e : start + 1 + j = start + (j + 1) := by omega
              rw [e]
              exact hall (j + 1) (by omega)
            · have e : start + 1 + k = start + (k + 1) := by omega
              rw [e]
              exact hch
            · have e : start + 1 + k = start + (k + 1) := by omega
              rw [e]
              exact hsk
        by_cases hd : env.deadlineExceeded start = true
        · simp only [hd, if_true]
          rw [ih (start + 1) (some start)]
          constructor
          · intro hex
            exact hshift hex ⟨hc, hs, Or.inl hd⟩
          · exact hback
        · simp only [Bool.not_eq_true] at hd
          simp only [hd, Bool.false_eq_true, if_false]
          by_cases hw : env.cancelDuringWait start = true
          · simp only [hw, if_true]
            constructor
            · intro h
              exact absurd h (by simp)
            · rintro ⟨k, hk, hall, hch, hsk⟩
              cases k with
              | zero =>
                rw [Nat.add_zero] at hsk
                rw [hs] at hsk
                exact absurd hsk (by decide)
              | succ k =>
                have hf := hall 0 (by omega)
                rw [Nat.add_zero] at hf
                rcases hf with ⟨-, -, g3 | g4⟩
                · rw [hd] at g3
                  exact absurd g3 (by decide)
                · rw [hw] at g4
                  exact absurd g4 (by decide)
          · simp only [Bool.not_eq_true] at hw
            simp only [hw, Bool.false_eq_true, if_false]
            rw [ih (start + 1) (some start)]
            constructor
            · intro hex
              exact hshift hex ⟨hc, hs, Or.inr hw⟩
            · exact hback

lemma publishAux_cancel_during_wait (env : PublishEnv) :
    ∀ fuel start last i, i < fuel →
      (∀ j, j < i → nonReturnFail env (start + j)) →
      env.ctxDoneAtCheck (start + i) = false → env.sendOk (start + i) = false →
      env.deadlineExceeded (start + i) = false →
      env.cancelDuringWait (start + i) = true →
      publishAux env start fuel last = PublishResult.cancelled := by
  intro fuel
  induction fuel with
  | zero =>
    intro start last i hi
    omega
  | succ fuel ih =>
    intro start last i hi hall hc hs hd hw
    cases i with
    | zero =>
      rw [Nat.add_zero] at hc hs hd hw
      rw [publishAux]
      simp [hc, hs, hd, hw]
    | succ i =>
      have hf := hall 0 (by omega)
      rw [Nat.add_zero] at hf
      rcases hf with ⟨g1, g2, g3⟩
      have hstep : publishAux env start (fuel + 1) last =
          publishAux env (start + 1) fuel (some start) := by
        rw [publishAux]
        by_cases hdl : env.deadlineExceeded start = true
        · simp [g1, g2, hdl]
        · have g4 : env.cancelDuringWait start = false := by
            rcases g3 with g3 | g3
            · exact absurd g3 hdl
            · exact g3
          simp [g1, g2, hdl, g4]
      rw [hstep]
      have e : ∀ m : Nat, start + 1 + m = start + (m + 1) := by omega
      refine ih (start + 1) (some start) i (by omega) ?_ ?_ ?_ ?_ ?_
      · intro j hj
        rw [e j]
        exact hall (j + 1) (by omega)
      · rw [e i]
        exact hc
      · rw [e i]
        exact hs
      · rw [e i]
        exact hd
      · rw [e i]
        exact hw

/-- Claim C1, counterexample: with a handler failing on every
invocation and no cancellation or deadline expiry, the retry loop of
processMessage invokes the handler exactly 3 times but forwards nothing
to a dead-letter publisher — the dead-letter count of the run is 0, so
the claimed forwarding of the original record does not happen. -/
theorem retry_no_dlt_counterexample :
    (processMessage (fun _ => ([], true)) quietEnv).countP isHandlerCall = 3 ∧
    (processMessage (fun _ => ([], true)) quietEnv).countP isDlt = 0 := by
  decide

/-- Claim C1, amended: for a handler that fails on every invocation
(and emits no events of its own), under no cancellation and no deadline
expiry the retry loop invokes the handler exactly maxRetries = 3 times
and then commits the offset; no record is forwarded to a dead-letter
publisher by the retry loop (the source only carries a comment where a
DLQ could be implemented). -/
theorem retry_exhaustion_behavior :
    ∀ (env : ConsumeEnv),
      (∀ i, env.ctxDoneAtCheck i = false) →
      (∀ i, env.deadlineExceeded i = false) →
      (∀ i, env.cancelDuringWait i = false) →
      processMessage (fun _ => ([], true)) env =
        [Event.handlerCall, Event.handlerCall, Event.handlerCall, Event.commit] := by
  intro env h1 h2 h3
  unfold processMessage maxRetries
  simp [processMessageAux, h1, h2, h3]

/-- Claim C6, counterexample: a record whose deserialization fails is
not handled once — running the pipeline on it invokes the handler 3
times (the full retry budget) and sends the record to the dead-letter
producer 3 times, because handleMessage returns the error after the DLT
send and the consumer loop retries it. -/
theorem terminal_record_counterexample :
    (processMessage (fun _ => defaultDetector.handleMessage none brokenMsg)
      quietEnv).countP isHandlerCall = 3 ∧
    (processMessage (fun _ => defaultDetector.handleMessage none brokenMsg)
      quietEnv).countP isDlt = 3 := by
  decide

/-- Claim C6, amended: for a record whose deserialization fails, each
of the maxRetries = 3 handler invocations sends the original record to
the dead-letter producer (so the full retry budget is consumed and the
record reaches the DLT three times), and the offset is then
committed. -/
theorem terminal_record_behavior :
    ∀ (m : ConsumerMessage) (env : ConsumeEnv),
      (∀ i, env.ctxDoneAtCheck i = false) →
      (∀ i, env.deadlineExceeded i = false) →
      (∀ i, env.cancelDuringWait i = false) →
      processMessage (fun _ => defaultDetector.handleMessage none m) env =
        [Event.handlerCall, Event.dltForward m.key m.value,
         Event.handlerCall, Event.dltForward m.key m.value,
         Event.handlerCall, Event.dltForward m.key m.value, Event.commit] := by
  intro m env h1 h2 h3
  unfold processMessage maxRetries
  simp [processMessageAux, AnomalyDetector.handleMessage, h1, h2, h3]

/-- Claim C2: the worker-pool channel has capacity
DefaultWorkerPoolSize = 10 by default; along any valid history of the
semaphore channel the number of occupied slots never exceeds the
capacity fixed at construction; and one dispatched record releases its
slot exactly once on every path (success, exhaustion or cancellation),
because the release is deferred around processMessage. -/
theorem worker_pool_invariants :
    DefaultWorkerPoolSize = 10 ∧
    (∀ (cap : Nat) (ops : List SlotOp) (k : Nat),
      validFrom cap 0 ops → occupiedFrom 0 (ops.take k) ≤ cap) ∧
    (∀ (handler : Nat → List Event × Bool) (env : ConsumeEnv),
      (∀ i, (handler i).1.countP isRelease = 0) →
      (dispatch handler env).countP isRelease = 1) := by
  refine ⟨rfl, ?_, ?_⟩
  · intro cap ops k hv
    exact occupiedFrom_take_le cap ops 0 k hv (by omega)
  · intro handler env hh
    unfold dispatch
    simp [List.countP_append, countP_release_processMessage handler env hh, isRelease]

/-- Claim C3: for every attempt index i and jitter draw u from [0,1),
the consumer and publisher backoff delays agree, equal
base * 2 ^ i times a jitter factor lying in [0.8, 1.2], and with
base = 100 ms the delay for attempt 0 lies in [80, 120] ms and for
attempt 2 in [320, 480] ms. -/
theorem backoff_delay_bounds :
    ∀ (i : Nat) (u : ℚ), 0 ≤ u → u < 1 →
      consumerJitter i u = publisherJitter i u ∧
      consumerJitter i u = 100 * 2 ^ i * (8 / 10 + 4 / 10 * u) ∧
      8 / 10 ≤ 8 / 10 + 4 / 10 * u ∧ 8 / 10 + 4 / 10 * u ≤ 12 / 10 ∧
      8 / 10 * (100 * 2 ^ i) ≤ consumerJitter i u ∧
      consumerJitter i u ≤ 12 / 10 * (100 * 2 ^ i) ∧
      80 ≤ consumerJitter 0 u ∧ consumerJitter 0 u ≤ 120 ∧
      320 ≤ consumerJitter 2 u ∧ consumerJitter 2 u ≤ 480 := by
  intro i u h0 h1
  have hpow : (0:ℚ) < 2 ^ i := by positivity
  have hf0 : (8:ℚ) / 10 ≤ 8 / 10 + 4 / 10 * u := by nlinarith
  have hf1 : (8:ℚ) / 10 + 4 / 10 * u ≤ 12 / 10 := by nlinarith
  refine ⟨rfl, rfl, hf0, hf1, ?_, ?_, ?_, ?_, ?_, ?_⟩
  · unfold consumerJitter consumerBackoffTime
    nlinarith
  · unfold consumerJitter consumerBackoffTime
    nlinarith
  · unfold consumerJitter consumerBackoffTime
    nlinarith
  · unfold consumerJitter consumerBackoffTime
    nlinarith
  · unfold consumerJitter consumerBackoffTime
    nlinarith
  · unfold consumerJitter consumerBackoffTime
    nlinarith

/-- Claim C4, counterexample: Publish can return success from an
attempt made after the retry deadline has passed — the deadline break
exits only the select, so the loop proceeds to the next delivery
attempt instead of returning the PublishError: here attempt 0 fails
with the deadline already exceeded and attempt 1 acknowledges, yet
Publish returns nil. -/
theorem publish_after_deadline_counterexample :
    Publish deadlineRaceEnv = PublishResult.success ∧
    deadlineRaceEnv.deadlineExceeded 0 = true ∧
    deadlineRaceEnv.sendOk 0 = false ∧
    deadlineRaceEnv.sendOk 1 = true := by
  decide

/-- Claim C4, amended: Publish returns success iff some executed
delivery attempt (at most maxRetries = 3; execution continues past the
deadline because the deadline break only skips the backoff wait)
acknowledges, where an attempt executes iff every earlier iteration
failed without returning; when every attempt fails with no
cancellation it returns the error wrapping the failure of the last
executed attempt (index 2), whatever the deadline flags; and when the
caller cancels during the wait-before-retry, Publish returns the
cancellation result, not the delivery error. -/
theorem publish_result_semantics :
    ∀ (env : PublishEnv),
      (Publish env = PublishResult.success ↔
        ∃ k, k < maxRetries ∧ (∀ j, j < k → nonReturnFail env j) ∧
          env.ctxDoneAtCheck k = false ∧ env.sendOk k = true) ∧
      ((∀ i, env.ctxDoneAtCheck i = false) → (∀ i, env.sendOk i = false) →
        (∀ i, env.cancelDuringWait i = false) →
        Publish env = PublishResult.exhausted (some 2)) ∧
      (∀ i, i < maxRetries → (∀ j, j < i → nonReturnFail env j) →
        env.ctxDoneAtCheck i = false → env.sendOk i = false →
        env.deadlineExceeded i = false → env.cancelDuringWait i = true →
        Publish env = PublishResult.cancelled) := by
  intro env
  refine ⟨?_, ?_, ?_⟩
  · have h := publishAux_success_iff env maxRetries 0 none
    simpa only [Nat.zero_add] using h
  · intro h1 h2 h4
    have s0 := publishAux_step env 0 2 none (h1 0) (h2 0) (h4 0)
    have s1 := publishAux_step env 1 1 (some 0) (h1 1) (h2 1) (h4 1)
    have s2 := publishAux_step env 2 0 (some 1) (h1 2) (h2 2) (h4 2)
    unfold Publish maxRetries
    norm_num at s0 s1 s2 ⊢
    rw [s0, s1, s2]
    rfl
  · intro i hi hall hc hs hd hw
    have h := publishAux_cancel_during_wait env maxRetries 0 none i hi
    simp only [Nat.zero_add] at h
    exact h hall hc hs hd hw

/-- Claim C5, failing-input evaluation: the handler succeeds on its
first invocation, yet the offset is not committed — the
`break // Success, exit the loop` exits only the select, so the loop
re-enters, observes ctx.Done at iteration 1's shutdown check and
returns before MarkMessage; the third conjunct shows that without
cancellation the always-succeeding handler is even re-invoked on all 3
iterations before the single commit. -/
theorem success_then_cancel_no_commit :
    processMessage (fun _ => ([], false)) cancelAtOneEnv = [Event.handlerCall] ∧
    (processMessage (fun _ => ([], false)) cancelAtOneEnv).countP isCommit = 0 ∧
    processMessage (fun _ => ([], false)) quietEnv =
      [Event.handlerCall, Event.handlerCall, Event.handlerCall, Event.commit] := by
  decide

/-- Claim C7: a reading with temperature 55 and humidity 50 yields
exactly one alert with reason "Temperature exceeds 50°C"; temperature
20 and humidity 5 yields exactly one alert with reason "Humidity below
10%"; temperature 20 and humidity 50 yields no alert; and every alert
the handler publishes carries the reading's id as its source id and as
the record key, and copies the reading's timestamp and both
measurements. -/
theorem handler_alert_cases :
    ∀ (id : String) (ts : Int) (m : ConsumerMessage),
      ((defaultDetector.handleMessage (some ⟨id, ts, 55, 50⟩) m).1 =
        [Event.alertPublish id (NewSensorAlert ⟨id, ts, 55, 50⟩ "Temperature exceeds 50°C")]) ∧
      ((defaultDetector.handleMessage (some ⟨id, ts, 20, 5⟩) m).1 =
        [Event.alertPublish id (NewSensorAlert ⟨id, ts, 20, 5⟩ "Humidity below 10%")]) ∧
      ((defaultDetector.handleMessage (some ⟨id, ts, 20, 50⟩) m).1 = []) ∧
      (∀ (deser : Option SensorReading) (key : String) (a : SensorAlert),
        Event.alertPublish key a ∈ (defaultDetector.handleMessage deser m).1 →
        ∃ r, deser = some r ∧ key = r.id ∧ a.sensorID = r.id ∧
          a.timestamp = r.timestamp ∧ a.temperature = r.temperature ∧
          a.humidity = r.humidity) := by
  intro id ts m
  refine ⟨?_, ?_, ?_, ?_⟩
  · norm_num [AnomalyDetector.handleMessage, ValidateSensorReading, NewSensorAlert]
  · norm_num [AnomalyDetector.handleMessage, ValidateSensorReading, NewSensorAlert]
  · norm_num [AnomalyDetector.handleMessage, ValidateSensorReading]
  · intro deser key a hmem
    cases deser with
    | none => simp [AnomalyDetector.handleMessage] at hmem
    | some r =>
      unfold AnomalyDetector.handleMessage at hmem
      by_cases hv : (ValidateSensorReading r).1 = false
      · simp only [hv, if_true, List.mem_singleton, reduceIte] at hmem
        refine ⟨r, rfl, ?_⟩
        rw [Event.alertPublish.injEq] at hmem
        obtain ⟨hk, ha⟩ := hmem
        subst ha
        exact ⟨hk, rfl, rfl, rfl, rfl⟩
      · simp [hv] at hmem

/-- Claim C8, divergence evidence: a detector constructed with
configured ceiling 60 and floor 10 still flags a reading with
temperature 55 and humidity 50 as anomalous and publishes an alert,
although the reading violates neither configured threshold — the
handler consults the hardcoded constants in ValidateSensorReading, and
its maxTemperature / minHumidity fields are never read. -/
theorem configured_thresholds_ignored :
    (AnomalyDetector.handleMessage ⟨60, 10⟩ (some ⟨"s", 0, 55, 50⟩) ⟨[], []⟩).1 =
      [Event.alertPublish "s" (NewSensorAlert ⟨"s", 0, 55, 50⟩ "Temperature exceeds 50°C")] ∧
    ¬ ((55 : ℚ) > (AnomalyDetector.mk 60 10).maxTemperature ∨
       (50 : ℚ) < (AnomalyDetector.mk 60 10).minHumidity) := by
  constructor
  · norm_num [AnomalyDetector.handleMessage, ValidateSensorReading, NewSensorAlert]
  · norm_num [AnomalyDetector.mk]

/-- Claim C9: serializing a Reading or an Alert and deserializing the
result reproduces every field exactly — the id (and reason) bytes, the
zigzag-varint timestamp, and both float measurements to the bit, i.e.
within the format's native 32-bit precision. -/
theorem serialization_round_trip :
    ∀ (r : SensorReadingWire) (a : SensorAlertWire),
      r.temperature < 4294967296 → r.humidity < 4294967296 →
      a.temperature < 4294967296 → a.humidity < 4294967296 →
      DeserializeSensorReading (SerializeSensorReading r) = some r ∧
      DeserializeSensorAlert (SerializeSensorAlert a) = some a := by
  intro r a hrt hrh hat hah
  constructor
  · unfold SerializeSensorReading DeserializeSensorReading
    simp only [List.append_assoc]
    rw [parseBytes_encodeBytes]
    simp only []
    rw [parseVarint_varint]
    simp only []
    rw [parseWord32_word32Bytes r.temperature hrt]
    simp only []
    rw [← List.append_nil (word32Bytes r.humidity),
      parseWord32_word32Bytes r.humidity hrh]
    simp [zigzag_round]
  · unfold SerializeSensorAlert DeserializeSensorAlert
    simp only [List.append_assoc]
    rw [parseBytes_encodeBytes]
    simp only []
    rw [parseVarint_varint]
    simp only []
    rw [parseBytes_encodeBytes]
    simp only []
    rw [parseWord32_word32Bytes a.temperature hat]
    simp only []
    rw [← List.append_nil (word32Bytes a.humidity),
      parseWord32_word32Bytes a.humidity hah]
    simp [zigzag_round]

/-- Claim C10: ValidateSensorReading returns invalid with the
temperature reason exactly when temperature > 50, invalid with the
humidity reason exactly when temperature ≤ 50 and humidity < 10, and
valid with an empty reason otherwise; the boundary reading with
temperature 50 and humidity 10 is valid and yields zero alerts; and a
reading violating both thresholds yields exactly one alert, carrying
the temperature reason. -/
theorem validate_reading_semantics :
    ∀ (r : SensorReading) (m : ConsumerMessage),
      (ValidateSensorReading r = (false, "Temperature exceeds 50°C") ↔
        50 < r.temperature) ∧
      (ValidateSensorReading r = (false, "Humidity below 10%") ↔
        (r.temperature ≤ 50 ∧ r.humidity < 10)) ∧
      ((r.temperature ≤ 50 ∧ 10 ≤ r.humidity) →
        ValidateSensorReading r = (true, "")) ∧
      (ValidateSensorReading ⟨r.id, r.timestamp, 50, 10⟩ = (true, "")) ∧
      ((defaultDetector.handleMessage
        (some ⟨r.id, r.timestamp, 50, 10⟩) m).1 = []) ∧
      (50 < r.temperature → r.humidity < 10 →
        (defaultDetector.handleMessage (some r) m).1 =
          [Event.alertPublish r.id (NewSensorAlert r "Temperature exceeds 50°C")]) := by
  intro r m
  have hb : ValidateSensorReading ⟨r.id, r.timestamp, 50, 10⟩ = (true, "") := by
    unfold ValidateSensorReading
    norm_num
  refine ⟨?_, ?_, ?_, hb, ?_, ?_⟩
  · unfold ValidateSensorReading
    by_cases ht : 50 < r.temperature
    · simp [ht]
    · by_cases hh : r.humidity < 10 <;> simp [ht, hh]
  · unfold ValidateSensorReading
    by_cases ht : 50 < r.temperature
    · simp [ht]
    · by_cases hh : r.humidity < 10 <;>
        simp [ht, hh, le_of_not_lt ht]
  · intro ⟨ht, hh⟩
    unfold ValidateSensorReading
    simp [not_lt.2 ht, not_lt.2 hh]
  · unfold AnomalyDetector.handleMessage
    simp [hb]
  · intro ht hh
    unfold AnomalyDetector.handleMessage ValidateSensorReading
    simp [ht, NewSensorAlert]

/-- Witness for retry_exhaustion_behavior at the quiet environment. -/
theorem retry_exhaustion_behavior_witness :
    processMessage (fun _ => ([], true)) quietEnv =
      [Event.handlerCall, Event.handlerCall, Event.handlerCall, Event.commit] :=
  retry_exhaustion_behavior quietEnv (fun _ => rfl) (fun _ => rfl) (fun _ => rfl)

/-- Witness for worker_pool_invariants on a one-slot pool and a run of
the always-failing handler. -/
theorem worker_pool_invariants_witness :
    occupiedFrom 0 ([SlotOp.acquire, SlotOp.release].take 1) ≤ 1 ∧
    (dispatch (fun _ => ([], true)) quietEnv).countP isRelease = 1 :=
  ⟨worker_pool_invariants.2.1 1 [SlotOp.acquire, SlotOp.release] 1
      (by norm_num [validFrom]),
   worker_pool_invariants.2.2 (fun _ => ([], true)) quietEnv (fun _ => rfl)⟩

/-- Witness for backoff_delay_bounds at attempt 0 with draw 1/2. -/
theorem backoff_delay_bounds_witness :
    80 ≤ consumerJitter 0 ((1 : ℚ) / 2) ∧ consumerJitter 0 ((1 : ℚ) / 2) ≤ 120 :=
  ⟨(backoff_delay_bounds 0 (1 / 2) (by norm_num) (by norm_num)).2.2.2.2.2.2.1,
   (backoff_delay_bounds 0 (1 / 2) (by norm_num) (by norm_num)).2.2.2.2.2.2.2.1⟩

/-- Witness for publish_result_semantics on the all-failures
environment. -/
theorem publish_result_semantics_witness :
    Publish allFailEnv = PublishResult.exhausted (some 2) :=
  (publish_result_semantics allFailEnv).2.1
    (fun _ => rfl) (fun _ => rfl) (fun _ => rfl)

/-- Witness for terminal_record_behavior at the broken record in the
quiet environment. -/
theorem terminal_record_behavior_witness :
    processMessage (fun _ => defaultDetector.handleMessage none brokenMsg)
      quietEnv =
      [Event.handlerCall, Event.dltForward brokenMsg.key brokenMsg.value,
       Event.handlerCall, Event.dltForward brokenMsg.key brokenMsg.value,
       Event.handlerCall, Event.dltForward brokenMsg.key brokenMsg.value,
       Event.commit] :=
  terminal_record_behavior brokenMsg quietEnv
    (fun _ => rfl) (fun _ => rfl) (fun _ => rfl)

/-- Witness for handler_alert_cases at a concrete hot reading,
exercising the field-copying clause on the produced alert. -/
theorem handler_alert_cases_witness :
    (defaultDetector.handleMessage (some ⟨"a", 0, 55, 50⟩) ⟨[], []⟩).1 =
      [Event.alertPublish "a"
        (NewSensorAlert ⟨"a", 0, 55, 50⟩ "Temperature exceeds 50°C")] ∧
    (NewSensorAlert ⟨"a", 0, 55, 50⟩ "Temperature exceeds 50°C").sensorID = "a" := by
  have h := handler_alert_cases "a" 0 ⟨[], []⟩
  refine ⟨h.1, ?_⟩
  obtain ⟨r, hr, -, hsid, -, -, -⟩ :=
    h.2.2.2 (some ⟨"a", 0, 55, 50⟩) "a"
      (NewSensorAlert ⟨"a", 0, 55, 50⟩ "Temperature exceeds 50°C")
      (by rw [h.1]; exact List.mem_singleton_self _)
  injection hr with hr2
  subst hr2
  exact hsid

/-- Witness for serialization_round_trip at concrete wire records. -/
theorem serialization_round_trip_witness :
    DeserializeSensorReading
        (SerializeSensorReading ⟨[104, 105], -5, 1000, 7⟩) =
      some ⟨[104, 105], -5, 1000, 7⟩ ∧
    DeserializeSensorAlert
        (SerializeSensorAlert ⟨[104], 12, [65], 3, 0⟩) =
      some ⟨[104], 12, [65], 3, 0⟩ :=
  serialization_round_trip ⟨[104, 105], -5, 1000, 7⟩ ⟨[104], 12, [65], 3, 0⟩
    (by norm_num) (by norm_num) (by norm_num) (by norm_num)

/-- Witness for validate_reading_semantics: a reading violating both
thresholds yields exactly the temperature alert. -/
theorem validate_reading_semantics_witness :
    (defaultDetector.handleMessage (some ⟨"s", 0, 60, 5⟩) ⟨[], []⟩).1 =
      [Event.alertPublish "s"
        (NewSensorAlert ⟨"s", 0, 60, 5⟩ "Temperature exceeds 50°C")] :=
  (validate_reading_semantics ⟨"s", 0, 60, 5⟩ ⟨[], []⟩).2.2.2.2.2
    (by norm_num) (by norm_num)

end SensorFleet
